import Mathlib

/-!
# Verification of the Captcha_Solver pipeline

Shallow embedding of the `captcha_solver` Python package (configuration
validation, image preprocessing, OCR confidence scoring, the multi-config
recognition fold, the solve orchestrator with its bounded processing
history, batch solving, and data-URI base64 extraction), together with
theorems settling the specification claims about it.

Machine-level collaborators (the Tesseract engine, OpenCV edge/line
detection, the HTTP session) are parameters of the embedded functions:
each embedded operation takes the collaborator's reported data as input
and is otherwise a line-by-line translation of the Python source.
-/

namespace CaptchaSolver

/-! ## Configuration (`config.py`) -/

namespace Config

/-- The step names accepted by `Config.validate_config` (config.py line 147):
`valid_steps = ["grayscale", "denoise", "threshold", "morphology", "skew_correction"]`. -/
def valid_steps : List String :=
  ["grayscale", "denoise", "threshold", "morphology", "skew_correction"]

/-- The required top-level sections checked by `validate_config` (config.py line 131). -/
def required_sections : List String :=
  ["tesseract", "preprocessing", "selenium", "ocr", "extraction"]

/-- The fields of the solver configuration dictionary that
`Config.validate_config` reads: the set of top-level section keys,
`config["selenium"]["timeout"]`, `config["ocr"]["confidence_threshold"]`
and `config["preprocessing"]["steps"]`. -/
structure ConfigModel where
  sections : List String
  seleniumTimeout : ℚ
  ocrConfidenceThreshold : ℚ
  preprocessingSteps : List String
deriving DecidableEq

/-- `Config.validate_config` (config.py lines 125-150): raises `ValueError`
(here `Except.error`) on the first violated check, in source order —
missing required section, non-positive selenium timeout, OCR confidence
threshold outside `[0, 100]`, then the first preprocessing step name not in
`valid_steps`. -/
def validate_config (c : ConfigModel) : Except String Unit :=
  match required_sections.find? (fun s => !(c.sections.contains s)) with
  | some s => Except.error ("Missing required configuration section: " ++ s)
  | none =>
    if c.seleniumTimeout ≤ 0 then
      Except.error "Selenium timeout must be positive"
    else if !(decide (0 ≤ c.ocrConfidenceThreshold) && decide (c.ocrConfidenceThreshold ≤ 100)) then
      Except.error "OCR confidence threshold must be between 0 and 100"
    else
      match c.preprocessingSteps.find? (fun st => !(valid_steps.contains st)) with
      | some st => Except.error ("Invalid preprocessing step: " ++ st)
      | none => Except.ok ()

/-- The values `DEFAULT_CONFIG` supplies for the fields `validate_config`
reads (config.py lines 15-42): all five sections present, selenium timeout
10, OCR confidence threshold 60, steps grayscale/denoise/threshold/morphology. -/
def default_config_model : ConfigModel :=
  { sections := required_sections
    seleniumTimeout := 10
    ocrConfidenceThreshold := 60
    preprocessingSteps := ["grayscale", "denoise", "threshold", "morphology"] }

/-- The step names the preprocessor itself implements and advertises:
`ImagePreprocessor.preprocess` dispatches on exactly these six names
(preprocessor.py lines 43-57) and `get_processing_info` lists them as
`available_steps` (preprocessor.py lines 340-343). -/
def available_steps : List String :=
  ["grayscale", "denoise", "threshold", "morphology", "skew_correction", "enhance"]

end Config

/-! ## Image preprocessing (`preprocessor.py`) -/

namespace Preproc

/-- ITU-R 601-2 luma transform used by PIL for mode-"L" conversion,
applied to one pixel's channel list (RGB or RGBA; an "L" pixel is kept,
anything else maps to 0). -/
def luma : List ℕ → ℕ
  | [r, g, b] => (r * 299 + g * 587 + b * 114) / 1000
  | [r, g, b, _] => (r * 299 + g * 587 + b * 114) / 1000
  | [l] => l
  | _ => 0

/-- A PIL image: a mode string and per-pixel channel values. -/
structure PILImage where
  mode : String
  pixels : List (List ℕ)
deriving DecidableEq

/-- PIL's `Image.convert('L')`: every pixel is reduced to a single luma
channel and the resulting image has mode "L". -/
def pil_convert_L (img : PILImage) : PILImage :=
  { mode := "L", pixels := img.pixels.map (fun ch => [luma ch]) }

/-- `ImagePreprocessor.convert_to_grayscale` (preprocessor.py lines 62-73):
convert with PIL when the mode is not already "L", otherwise return the
image unchanged. -/
def convert_to_grayscale (image : PILImage) : PILImage :=
  if image.mode ≠ "L" then pil_convert_L image else image

/-- The angle conversion in `ImagePreprocessor.correct_skew`
(preprocessor.py lines 192-196): a Hough line angle, already expressed in
degrees, is folded into a rotation angle by subtracting 180 when it
exceeds 90. -/
def convert_angle (thetaDeg : ℚ) : ℚ :=
  if thetaDeg > 90 then thetaDeg - 180 else thetaDeg

/-- Insert into an ascending-sorted list, keeping it sorted. -/
def sortedInsert (x : ℚ) : List ℚ → List ℚ
  | [] => [x]
  | y :: ys => if x ≤ y then x :: y :: ys else y :: sortedInsert x ys

/-- Ascending insertion sort (the sorting `np.median` performs; only the
sorted value sequence matters for the median). -/
def sortAsc (l : List ℚ) : List ℚ :=
  l.foldr sortedInsert []

/-- `np.median` on a non-empty list: sort ascending, take the middle
element for odd length and the mean of the two middle elements for even
length. -/
def np_median (l : List ℚ) : ℚ :=
  let s := sortAsc l
  let n := s.length
  if n % 2 = 1 then s.getD (n / 2) 0
  else (s.getD (n / 2 - 1) 0 + s.getD (n / 2) 0) / 2

/-- The outcome of `ImagePreprocessor.correct_skew`: either the input
image returned unchanged, or `cv2.warpAffine` applied with a rotation
matrix about the given center by the given angle, with the interpolation
flag and border mode the call passes (preprocessor.py lines 204-210). -/
inductive SkewResult where
  | unchanged
  | rotated (center : ℕ × ℕ) (angle : ℚ) (flags : String) (borderMode : String)
deriving DecidableEq

/-- `ImagePreprocessor.correct_skew` (preprocessor.py lines 171-212),
parametrized by the image size and by the list of line angles (in
degrees, `theta * 180 / pi`) that `cv2.HoughLines` reports on the Canny
edges; `lineAnglesDeg = []` covers both `lines is None` and an empty
result. When the median converted angle has absolute value greater than
1 the image is rotated about `(width // 2, height // 2)` by the median
angle with `INTER_CUBIC` interpolation and `BORDER_REPLICATE`; otherwise
the input image is returned unchanged. -/
def correct_skew (width height : ℕ) (lineAnglesDeg : List ℚ) : SkewResult :=
  if lineAnglesDeg.isEmpty then .unchanged
  else
    let angles := lineAnglesDeg.map convert_angle
    let median_angle := np_median angles
    if |median_angle| > 1 then
      .rotated (width / 2, height / 2) median_angle "INTER_CUBIC" "BORDER_REPLICATE"
    else .unchanged

end Preproc

/-! ## OCR (`ocr.py`) -/

namespace OCR

/-- The whitespace characters recognized by Python's `str.strip` and the
regexp class `\s` (ASCII range). -/
def isPySpace (c : Char) : Bool :=
  c = ' ' || c = '\t' || c = '\n' || c = '\r' || c = '\x0b' || c = '\x0c'

/-- Python `str.strip()`: remove leading and trailing whitespace. -/
def pyStrip (l : List Char) : List Char :=
  ((l.dropWhile isPySpace).reverse.dropWhile isPySpace).reverse

/-- Python `str.isprintable` on the ASCII range: printable characters are
0x20 through 0x7e. -/
def isPrintable (c : Char) : Bool :=
  32 ≤ c.toNat && c.toNat ≤ 126

/-- `re.sub(r'\s+', ' ', text)`: replace each maximal whitespace run by a
single space. -/
def collapse_ws (l : List Char) : List Char :=
  l.foldr
    (fun c acc =>
      if isPySpace c then
        match acc with
        | ' ' :: _ => acc
        | _ => ' ' :: acc
      else c :: acc) []

/-- The OCR-artifact characters removed by `utils.clean_text`
(utils.py line 121): `|`, `\`, `/`, `_`, `~` and the backquote. -/
def artifact_chars : List Char :=
  ['|', '\\', '/', '_', '~', Char.ofNat 96]

/-- `utils.clean_text` (utils.py lines 102-123): keep printable
characters, collapse whitespace runs to single spaces and strip the ends,
then remove the artifact characters. -/
def clean_text (l : List Char) : List Char :=
  let printable := l.filter isPrintable
  let collapsed := pyStrip (collapse_ws printable)
  collapsed.filter (fun c => !(artifact_chars.contains c))

/-- `unicodedata.normalize('NFKD', text).encode('ascii', 'ignore')`
(ocr.py line 145) restricted to the ASCII range, where NFKD is the
identity and the encode keeps every character; non-ASCII characters are
dropped (their NFKD decomposition is outside this model, which covers the
engine's whitelisted ASCII output). -/
def nfkd_ascii (l : List Char) : List Char :=
  l.filter (fun c => c.toNat < 128)

/-- `OCRHandler._clean_ocr_result` (ocr.py lines 132-168): empty input
stays empty; otherwise normalize to ASCII, apply `clean_text`, and remove
all spaces. The character-substitution table defined there is never
applied. -/
def clean_ocr_result (l : List Char) : List Char :=
  if l.isEmpty then []
  else (clean_text (nfkd_ascii l)).filter (fun c => c ≠ ' ')

/-- One entry of the parallel `text`/`conf` lists that
`pytesseract.image_to_data` reports. -/
structure TokenData where
  text : List Char
  conf : Int
deriving DecidableEq

/-- The `last_confidence`/`last_result` fields of `OCRHandler`. -/
structure OCRState where
  last_confidence : ℚ
  last_result : List Char
deriving DecidableEq

/-- The tokens `recognize_text` keeps (ocr.py lines 64-67): those whose
stripped text is non-empty. -/
def kept_tokens (data : List TokenData) : List TokenData :=
  data.filter (fun t => !(pyStrip t.text).isEmpty)

/-- `raw_text = ' '.join(text_parts)` (ocr.py line 70). -/
def raw_text (data : List TokenData) : List Char :=
  List.intercalate [' '] ((kept_tokens data).map (fun t => t.text))

/-- The `confidences` list of `recognize_text` (ocr.py line 67): the
engine confidences of the kept tokens. -/
def confidences (data : List TokenData) : List Int :=
  (kept_tokens data).map (fun t => t.conf)

/-- The confidence computation of `recognize_text` (ocr.py lines 73-76):
if the confidences list is non-empty, the mean of its strictly positive
entries when any exist and 0 otherwise; 0.0 for an empty list. -/
def recognized_confidence (data : List TokenData) : ℚ :=
  let confs := confidences data
  if !confs.isEmpty then
    if confs.any (fun c => c > 0) then
      ((confs.filter (fun c => c > 0)).sum : ℚ) / ((confs.filter (fun c => c > 0)).length : ℚ)
    else 0
  else 0

/-- `OCRHandler.recognize_text` (ocr.py lines 42-91), parametrized by the
engine's reported data for the chosen configuration (`Except.error` when
`image_to_data` raises): on success it records the computed confidence
and the cleaned text and returns the cleaned text; on an engine error the
`except` clause returns the empty string with confidence 0. -/
def recognize_text (res : Except String (List TokenData)) : List Char × OCRState :=
  match res with
  | .error _ => ([], { last_confidence := 0, last_result := [] })
  | .ok data =>
    let conf := recognized_confidence data
    let cleaned := clean_ocr_result (raw_text data)
    (cleaned, { last_confidence := conf, last_result := cleaned })

/-- Modelled from the spec sentence "Confidence is the mean of all
per-token confidence values reported by the engine that are non-negative;
if none are reported, confidence is 0", for comparison with
`recognized_confidence`. -/
def spec_confidence_mean_nonneg (confs : List Int) : ℚ :=
  let nn := confs.filter (fun c => 0 ≤ c)
  if nn.isEmpty then 0 else ((nn.sum : ℚ) / (nn.length : ℚ))

/-- The clean counterpart of the code's confidence expression: the mean
of the strictly positive reported confidences, 0 when there are none. -/
def spec_confidence_mean_positive (confs : List Int) : ℚ :=
  let pos := confs.filter (fun c => 0 < c)
  if pos.isEmpty then 0 else ((pos.sum : ℚ) / (pos.length : ℚ))

/-- `OCRHandler.get_confidence` (ocr.py lines 170-176). -/
def get_confidence (st : OCRState) : ℚ :=
  st.last_confidence

/-- The fixed ordered configuration list of
`recognize_with_multiple_configs` (ocr.py lines 102-109). -/
def ocr_configs : List String :=
  ["--psm 8 -c tessedit_char_whitelist=0123456789ABCDEFGHIJKLMNOPQRSTUVWXYZabcdefghijklmnopqrstuvwxyz",
   "--psm 7 -c tessedit_char_whitelist=0123456789ABCDEFGHIJKLMNOPQRSTUVWXYZabcdefghijklmnopqrstuvwxyz",
   "--psm 6 -c tessedit_char_whitelist=0123456789ABCDEFGHIJKLMNOPQRSTUVWXYZabcdefghijklmnopqrstuvwxyz",
   "--psm 8",
   "--psm 7",
   "--psm 13"]

/-- The loop body of `recognize_with_multiple_configs` (ocr.py lines
114-125): keep the new attempt when its confidence strictly exceeds the
best so far and its stripped text is non-empty. -/
def keep_best_step (best a : List Char × ℚ) : List Char × ℚ :=
  if best.2 < a.2 ∧ pyStrip a.1 ≠ [] then a else best

/-- `OCRHandler.recognize_with_multiple_configs` (ocr.py lines 93-130),
parametrized by the engine (the reported data per configuration string):
fold the loop body over the fixed configuration list starting from
`("", 0.0)`, then store the best pair in `last_result`/`last_confidence`
and return it. -/
def recognize_with_multiple_configs (engine : String → Except String (List TokenData)) :
    (List Char × ℚ) × OCRState :=
  let best := ocr_configs.foldl
    (fun best cfg =>
      let r := recognize_text (engine cfg)
      keep_best_step best (r.1, r.2.last_confidence)) ([], 0)
  (best, { last_confidence := best.2, last_result := best.1 })

/-- The (text, confidence) outcome of each configuration attempt, in
configuration order. -/
def ocr_attempts (engine : String → Except String (List TokenData)) : List (List Char × ℚ) :=
  ocr_configs.map (fun cfg =>
    let r := recognize_text (engine cfg)
    (r.1, r.2.last_confidence))

/-- An engine whose single reported token has non-empty text and
confidence 0, for every configuration. -/
def zero_conf_engine : String → Except String (List TokenData) :=
  fun _ => Except.ok [{ text := ['A'], conf := 0 }]

end OCR

/-! ## Solver orchestrator (`solver.py`) -/

namespace Solver

/-- One entry of `processing_history` (solver.py lines 258-265). -/
structure ProcRecord where
  timestamp : ℚ
  source : String
  image_hash : String
  result : List Char
  confidence : ℚ
  preprocessing_steps : List String
deriving DecidableEq

/-- `CAPTCHASolver._record_processing` (solver.py lines 248-271): append
the record, then keep only the last 100 entries
(`self.processing_history[-100:]`). -/
def record_processing (history : List Solver.ProcRecord) (r : Solver.ProcRecord) :
    List Solver.ProcRecord :=
  let h := history ++ [r]
  if 100 < h.length then h.drop (h.length - 100) else h

/-- The mutable state of `CAPTCHASolver` that the solve operations touch
(solver.py lines 57-61). -/
structure SolverState where
  last_processed_image : Option Preproc.PILImage
  last_confidence : ℚ
  last_result : List Char
  processing_history : List Solver.ProcRecord
deriving DecidableEq

/-- The outcomes of the external collaborators during one solve attempt:
`utils.validate_image_path` (raises on a missing or non-image file),
`PIL.Image.open`, `utils.calculate_image_hash`,
`ImagePreprocessor.preprocess` (any step may raise), the OCR engine's
reported data per configuration string, and the wall-clock timestamp
taken by `_record_processing`. -/
structure SolveEnv where
  validated_path : Except String String
  loaded_image : Except String Preproc.PILImage
  image_hash : Except String String
  preprocessed : Except String Preproc.PILImage
  ocr_engine : String → Except String (List OCR.TokenData)
  timestamp : ℚ

/-- `CAPTCHASolver._solve_image` (solver.py lines 165-221): hash the
image, preprocess (recording `last_processed_image`), recognize with
multiple configurations (recording `last_result`/`last_confidence`),
append one processing record, and return the text. The surrounding
`try`/`except` converts a failure of any stage into the empty string,
leaving the state updates of the stages already completed in place;
`_validate_result` only logs and does not change the result. -/
def solve_image (env : SolveEnv) (steps : List String) (source : String)
    (st : SolverState) : List Char × SolverState :=
  match env.image_hash with
  | .error _ => ([], st)
  | .ok hash =>
    match env.preprocessed with
    | .error _ => ([], st)
    | .ok pimg =>
      let st1 := { st with last_processed_image := some pimg }
      let best := (OCR.recognize_with_multiple_configs env.ocr_engine).1
      let st2 := { st1 with last_result := best.1, last_confidence := best.2 }
      let newRecord : Solver.ProcRecord :=
        { timestamp := env.timestamp, source := source, image_hash := hash,
          result := best.1, confidence := best.2, preprocessing_steps := steps }
      let st3 := { st2 with
                   processing_history := record_processing st2.processing_history newRecord }
      (best.1, st3)

/-- `CAPTCHASolver.solve_from_file` (solver.py lines 68-96): validate the
path, open the image, and delegate to `_solve_image` with the validated
path string as source; the `except` clause returns the empty string on
any failure. -/
def solve_from_file (env : SolveEnv) (steps : List String) (st : SolverState) :
    List Char × SolverState :=
  match env.validated_path with
  | .error _ => ([], st)
  | .ok path =>
    match env.loaded_image with
    | .error _ => ([], st)
    | .ok _ => solve_image env steps path st

/-- `CAPTCHASolver.solve_from_url` (solver.py lines 98-129):
`extractor.extract_from_url` returns `None` on failure (it catches its
own errors), in which case the empty string is returned; otherwise
`_solve_image` runs with the URL as source, under the same catch-all. -/
def solve_from_url (env : SolveEnv) (extracted : Option Preproc.PILImage)
    (url : String) (steps : List String) (st : SolverState) : List Char × SolverState :=
  match extracted with
  | none => ([], st)
  | some _ => solve_image env steps url st

/-- `CAPTCHASolver.solve_from_element` (solver.py lines 131-163): like
`solve_from_url` but the source is `driver.current_url` when a driver is
given and `"WebElement"` otherwise. -/
def solve_from_element (env : SolveEnv) (extracted : Option Preproc.PILImage)
    (driver_url : Option String) (steps : List String) (st : SolverState) :
    List Char × SolverState :=
  match extracted with
  | none => ([], st)
  | some _ =>
    let source := match driver_url with | some u => u | none => "WebElement"
    solve_image env steps source st

/-- One entry of the list `solve_batch` returns (solver.py lines
317-334). `has_error_field` tells whether the `"error"` key is present;
it is set only by the `except` clause of the batch loop. -/
structure BatchEntry where
  path : String
  result : List Char
  confidence : ℚ
  success : Bool
  has_error_field : Bool
deriving DecidableEq

/-- `CAPTCHASolver.solve_batch` (solver.py lines 297-343): call
`solve_from_file` on each path in order, threading the solver state, and
append one entry per path with the current `last_confidence` and
`success = bool(result.strip())`. `solve_from_file` swallows all its
failures and returns the empty string, so the loop's `except` clause —
the only place that adds an `"error"` field — never runs, and every
entry has `has_error_field := false`. -/
def solve_batch (inputs : List (String × SolveEnv)) (steps : List String)
    (st : SolverState) : List BatchEntry × SolverState :=
  match inputs with
  | [] => ([], st)
  | (path, env) :: rest =>
    let r := solve_from_file env steps st
    let entry : BatchEntry :=
      { path := path, result := r.1, confidence := r.2.last_confidence,
        success := !(OCR.pyStrip r.1).isEmpty, has_error_field := false }
    let tail := solve_batch rest steps r.2
    (entry :: tail.1, tail.2)

/-- A solve environment in which every stage fails. -/
def failing_env : SolveEnv :=
  { validated_path := Except.error "Image file not found"
    loaded_image := Except.error "cannot identify image file"
    image_hash := Except.error "hash failed"
    preprocessed := Except.error "preprocessing failed"
    ocr_engine := fun _ => Except.error "tesseract is not installed"
    timestamp := 0 }

/-- A solve environment in which every stage succeeds and the engine
reports one token "AB" with confidence 80 under every configuration. -/
def ok_env : SolveEnv :=
  { validated_path := Except.ok "img1.png"
    loaded_image := Except.ok { mode := "RGB", pixels := [[255, 255, 255]] }
    image_hash := Except.ok "d41d8cd98f00b204e9800998ecf8427e"
    preprocessed := Except.ok { mode := "L", pixels := [[255]] }
    ocr_engine := fun _ => Except.ok [{ text := ['A', 'B'], conf := 80 }]
    timestamp := 1700000000 }

/-- The initial solver state (solver.py lines 57-61). -/
def initial_state : SolverState :=
  { last_processed_image := none, last_confidence := 0, last_result := [],
    processing_history := [] }

end Solver

/-! ## CAPTCHA extraction (`extractor.py`): data URIs and base64 -/

namespace Extract

/-- The standard base64 alphabet used by Python's `base64.b64encode` and
`b64decode`. -/
def b64_alphabet : List Char :=
  ['A', 'B', 'C', 'D', 'E', 'F', 'G', 'H', 'I', 'J', 'K', 'L', 'M',
   'N', 'O', 'P', 'Q', 'R', 'S', 'T', 'U', 'V', 'W', 'X', 'Y', 'Z',
   'a', 'b', 'c', 'd', 'e', 'f', 'g', 'h', 'i', 'j', 'k', 'l', 'm',
   'n', 'o', 'p', 'q', 'r', 's', 't', 'u', 'v', 'w', 'x', 'y', 'z',
   '0', '1', '2', '3', '4', '5', '6', '7', '8', '9', '+', '/']

/-- The alphabet character of a sextet value. -/
def b64_char (n : ℕ) : Char :=
  b64_alphabet.getD n 'A'

/-- The sextet value of an alphabet character (`none` for a character
outside the alphabet). -/
def b64_char_index (c : Char) : Option ℕ :=
  b64_alphabet.findIdx? (fun a => a = c)

/-- Python's `base64.b64encode` on a byte string: each 3-byte group maps
to 4 alphabet characters; a trailing 1- or 2-byte group is padded with
`==` or `=`. -/
def b64encode : List ℕ → List Char
  | [] => []
  | [a] => [b64_char (a / 4), b64_char (a % 4 * 16), '=', '=']
  | [a, b] => [b64_char (a / 4), b64_char (a % 4 * 16 + b / 16), b64_char (b % 16 * 4), '=']
  | a :: b :: c :: rest =>
    b64_char (a / 4) :: b64_char (a % 4 * 16 + b / 16) ::
      b64_char (b % 16 * 4 + c / 64) :: b64_char (c % 64) :: b64encode rest

/-- Python's `base64.b64decode` on canonical base64 text: 4 characters
decode to 3 bytes, with `=` padding accepted only at the very end; a
length not a multiple of 4 or a character outside the alphabet is an
error (`none`). (Python discards foreign characters before decoding; no
input considered here contains any.) -/
def b64decode : List Char → Option (List ℕ)
  | [] => some []
  | c1 :: c2 :: c3 :: c4 :: rest =>
    if rest = [] ∧ c3 = '=' ∧ c4 = '=' then
      match b64_char_index c1, b64_char_index c2 with
      | some s1, some s2 => some [s1 * 4 + s2 / 16]
      | _, _ => none
    else if rest = [] ∧ c4 = '=' then
      match b64_char_index c1, b64_char_index c2, b64_char_index c3 with
      | some s1, some s2, some s3 => some [s1 * 4 + s2 / 16, s2 % 16 * 16 + s3 / 4]
      | _, _, _ => none
    else
      match b64_char_index c1, b64_char_index c2, b64_char_index c3, b64_char_index c4,
          b64decode rest with
      | some s1, some s2, some s3, some s4, some tail =>
        some ((s1 * 4 + s2 / 16) :: (s2 % 16 * 16 + s3 / 4) :: (s3 % 4 * 64 + s4) :: tail)
      | _, _, _, _, _ => none
  | _ => none

/-- The payload isolation of `CAPTCHAExtractor._decode_data_uri`
(extractor.py line 225): `re.match(r'data:image/[^;]+;base64,(.+)',
data_uri)`, returning the capture group. `[^;]+` greedily matches the
media subtype up to the first `;` (no backtracking past a `;` can
succeed, since the class excludes it), `;base64,` must follow literally,
and `(.+)` captures the remaining characters up to a newline, requiring
at least one. -/
def data_uri_payload (uri : List Char) : Option (List Char) :=
  if uri.take 11 = "data:image/".data then
    let rest1 := uri.drop 11
    let subtype := rest1.takeWhile (fun c => c ≠ ';')
    if subtype.isEmpty then none
    else
      let rest2 := rest1.drop subtype.length
      if rest2.take 8 = ";base64,".data then
        let payload := (rest2.drop 8).takeWhile (fun c => c ≠ '\n')
        if payload.isEmpty then none else some payload
      else none
  else none

/-- `CAPTCHAExtractor._decode_data_uri` (extractor.py lines 214-238) up
to `PIL.Image.open`: isolate the base64 payload of the data URI and
decode it; the resulting byte string is exactly what the image is opened
from (`Image.open(BytesIO(image_data))`). `none` models the logged
failure path returning `None`. -/
def decode_data_uri (uri : List Char) : Option (List ℕ) :=
  match data_uri_payload uri with
  | none => none
  | some p => b64decode p

end Extract

/-! ## Configuration object identity (`config.py`): shallow copy and deep merge

Python dictionaries are heap objects passed by reference.  To reason about
the aliasing of `Config.__init__`'s `self.config = self.DEFAULT_CONFIG.copy()`
(a shallow copy) together with the in-place mutation performed by
`Config._deep_merge`, the dictionaries live in an explicit heap: a value is
an opaque scalar (numbers, strings, booleans and lists are rendered as
atoms) or a reference to a heap dictionary. -/

namespace ConfigHeap

/-- A Python value stored in a dictionary slot: an opaque non-dict value,
or a reference to a dictionary object on the heap. -/
inductive JVal where
  | atom (s : String)
  | ref (addr : ℕ)
deriving DecidableEq

mutual
/-- A freshly parsed JSON document (the configuration file contents):
a tree, unaliased with anything on the heap. -/
inductive JTree where
  | atom (s : String)
  | obj (entries : JEntries)
/-- The key/value entries of a parsed JSON object, in document order. -/
inductive JEntries where
  | nil
  | cons (k : String) (t : JTree) (rest : JEntries)
end

/-- The heap of dictionary objects: contents per address, plus the next
fresh address. -/
structure Heap where
  dicts : List (ℕ × List (String × JVal))
  next : ℕ
deriving DecidableEq

/-- The entries of the dictionary object at an address (empty if the
address is dangling, which never happens in the runs considered). -/
def dictAt (h : Heap) (addr : ℕ) : List (String × JVal) :=
  ((h.dicts.find? (fun p => p.1 = addr)).map (fun p => p.2)).getD []

/-- Python dict lookup on an association list (first match; Python dicts
have unique keys). -/
def findV : List (String × JVal) → String → Option JVal
  | [], _ => none
  | (k', v') :: rest, k => if k' = k then some v' else findV rest k

/-- Python `d[k] = v` on an association list: replace in place, keeping
the key's position, or append a new key. -/
def setV : List (String × JVal) → String → JVal → List (String × JVal)
  | [], k, v => [(k, v)]
  | (k', v') :: rest, k, v =>
    if k' = k then (k, v) :: rest else (k', v') :: setV rest k v

/-- Mutate the dictionary object at an address: `heap[addr][k] = v`. -/
def heapSet (h : Heap) (addr : ℕ) (k : String) (v : JVal) : Heap :=
  { h with
    dicts := h.dicts.map (fun p => if p.1 = addr then (p.1, setV p.2 k v) else p) }

mutual
/-- Materialize a parsed JSON tree on the heap (each object becomes a
fresh dictionary), returning the stored value. -/
def embedTree (h : Heap) : JTree → Heap × JVal
  | .atom s => (h, .atom s)
  | .obj entries =>
    let he := embedEntries h entries
    let addr := he.1.next
    ({ dicts := he.1.dicts ++ [(addr, he.2)], next := addr + 1 }, .ref addr)
/-- Materialize the entries of a parsed object, in order. -/
def embedEntries (h : Heap) : JEntries → Heap × List (String × JVal)
  | .nil => (h, [])
  | .cons k t rest =>
    let hv := embedTree h t
    let hr := embedEntries hv.1 rest
    (hr.1, (k, hv.2) :: hr.2)
end

mutual
/-- One step of `Config._deep_merge` (config.py lines 79-83): when the
update value is an object and the base slot holds a dictionary reference,
recurse into that shared dictionary, mutating it in place; otherwise
assign the update value into the base dictionary. -/
def mergeOne (h : Heap) (base : ℕ) (k : String) : JTree → Heap
  | .obj entries =>
    match findV (dictAt h base) k with
    | some (.ref a) => deepMerge h a entries
    | _ =>
      let hv := embedTree h (.obj entries)
      heapSet hv.1 base k hv.2
  | t =>
    let hv := embedTree h t
    heapSet hv.1 base k hv.2
/-- `Config._deep_merge` (config.py lines 72-83) over the update's
entries in document order. -/
def deepMerge (h : Heap) (base : ℕ) : JEntries → Heap
  | .nil => h
  | .cons k t rest => deepMerge (mergeOne h base k t) base rest
end

/-- The shallow copy `self.DEFAULT_CONFIG.copy()` (config.py line 50):
a fresh dictionary object with the same entries — nested dictionary
references are shared, not copied. -/
def shallow_copy (h : Heap) (src : ℕ) : Heap × ℕ :=
  let entries := dictAt h src
  let addr := h.next
  ({ dicts := h.dicts ++ [(addr, entries)], next := addr + 1 }, addr)

/-- `Config.__init__` (config.py lines 44-55): shallow-copy
`DEFAULT_CONFIG`, then deep-merge the configuration file's parsed
contents into the copy when a file is given (`validate_config` only
reads). Returns the updated heap and the address of `self.config`. -/
def config_init (h : Heap) (defaultAddr : ℕ) :
    Option JEntries → Heap × ℕ
  | none => shallow_copy h defaultAddr
  | some fileCfg =>
    let hc := shallow_copy h defaultAddr
    (deepMerge hc.1 hc.2 fileCfg, hc.2)

/-- `config["k1"]["k2"]`: a two-level read through a section reference. -/
def config_get2 (h : Heap) (addr : ℕ) (k1 k2 : String) : Option JVal :=
  match findV (dictAt h addr) k1 with
  | some (.ref a) => findV (dictAt h a) k2
  | _ => none

/-- The heap holding `Config.DEFAULT_CONFIG` (config.py lines 15-42):
the class-level dictionary at address 8, its five section dictionaries at
addresses 0 and 4-7, and the nested preprocessing sub-dictionaries at
addresses 1-3. Non-dict leaves are atoms. -/
def default_heap : Heap :=
  { dicts :=
      [(0, [("cmd", .atom "/usr/bin/tesseract"),
            ("config", .atom "--psm 8 -c tessedit_char_whitelist=0123456789ABCDEFGHIJKLMNOPQRSTUVWXYZabcdefghijklmnopqrstuvwxyz")]),
       (1, [("kernel_size", .atom "[5, 5]"), ("sigma", .atom "0")]),
       (2, [("type", .atom "adaptive"), ("max_value", .atom "255"),
            ("block_size", .atom "11"), ("c", .atom "2")]),
       (3, [("kernel_size", .atom "[3, 3]"), ("iterations", .atom "1")]),
       (4, [("steps", .atom "[grayscale, denoise, threshold, morphology]"),
            ("gaussian_blur", .ref 1), ("threshold", .ref 2), ("morphology", .ref 3)]),
       (5, [("driver", .atom "chrome"), ("headless", .atom "True"),
            ("timeout", .atom "10"), ("window_size", .atom "[1920, 1080]")]),
       (6, [("confidence_threshold", .atom "60"), ("dpi", .atom "300"),
            ("language", .atom "eng")]),
       (7, [("timeout", .atom "30"), ("retry_attempts", .atom "3"),
            ("user_agent", .atom "Mozilla/5.0 (Windows NT 10.0; Win64; x64) AppleWebKit/537.36")]),
       (8, [("tesseract", .ref 0), ("preprocessing", .ref 4), ("selenium", .ref 5),
            ("ocr", .ref 6), ("extraction", .ref 7)])],
    next := 9 }

/-- The address of the class-level `DEFAULT_CONFIG` dictionary in
`default_heap`. -/
def default_addr : ℕ := 8

/-- The heap after the first `Config` is constructed with a configuration
file containing the single nested override `{s: {k: v}}`. -/
def heap_after_override (s k v : String) : Heap :=
  (config_init default_heap default_addr
    (some (JEntries.cons s (JTree.obj (JEntries.cons k (JTree.atom v) JEntries.nil))
      JEntries.nil))).1

/-- A second, defaults-only `Config()` constructed after the overridden
one: the resulting heap and the address of the new `self.config`. -/
def second_config (s k v : String) : Heap × ℕ :=
  config_init (heap_after_override s k v) default_addr none

end ConfigHeap

end CaptchaSolver

namespace CaptchaSolver

/-! ## Theorems -/

/-- C2 (code bug): `validate_config` rejects the step name `"enhance"`
even though the preprocessor implements and advertises it: on the default
configuration with `preprocessing.steps = ["enhance"]` the step-name check
raises instead of passing. -/
theorem validate_config_rejects_enhance :
    Config.validate_config
        { Config.default_config_model with preprocessingSteps := ["enhance"] }
      = Except.error "Invalid preprocessing step: enhance"
    ∧ "enhance" ∈ Config.available_steps := by
  constructor
  · rfl
  · decide

/-- C8: the grayscale preprocessing step is idempotent: applying
`convert_to_grayscale` twice yields the same image as applying it once. -/
theorem convert_to_grayscale_idempotent (i : Preproc.PILImage) :
    Preproc.convert_to_grayscale (Preproc.convert_to_grayscale i)
      = Preproc.convert_to_grayscale i := by
  unfold Preproc.convert_to_grayscale
  by_cases h : i.mode = "L" <;> simp [h, Preproc.pil_convert_L]

/-- C6: `correct_skew` returns the image unchanged when no lines are
detected or when the median converted line angle is at most 1 degree in
absolute value, and otherwise returns the image rotated about its center
by the median detected angle with cubic interpolation and replicate
border handling. -/
theorem correct_skew_spec (w h : ℕ) (l : List ℚ) :
    (l = [] → Preproc.correct_skew w h l = Preproc.SkewResult.unchanged)
    ∧ (l ≠ [] → |Preproc.np_median (l.map Preproc.convert_angle)| ≤ 1 →
        Preproc.correct_skew w h l = Preproc.SkewResult.unchanged)
    ∧ (l ≠ [] → 1 < |Preproc.np_median (l.map Preproc.convert_angle)| →
        Preproc.correct_skew w h l =
          Preproc.SkewResult.rotated (w / 2, h / 2)
            (Preproc.np_median (l.map Preproc.convert_angle))
            "INTER_CUBIC" "BORDER_REPLICATE") := by
  refine ⟨fun h1 => ?_, fun h1 h2 => ?_, fun h1 h2 => ?_⟩
  · subst h1; rfl
  · have hE : l.isEmpty = false := by
      cases l with
      | nil => exact absurd rfl h1
      | cons a t => rfl
    rw [Preproc.correct_skew, hE]
    simp only [Bool.false_eq_true, if_false]
    rw [if_neg]
    exact not_lt.mpr h2
  · have hE : l.isEmpty = false := by
      cases l with
      | nil => exact absurd rfl h1
      | cons a t => rfl
    rw [Preproc.correct_skew, hE]
    simp only [Bool.false_eq_true, if_false]
    rw [if_pos h2]

/-- C6 witness: a single detected line at 5 degrees exceeds the 1-degree
threshold, so a 100-by-40 image is rotated about (50, 20) by 5 degrees. -/
theorem correct_skew_spec_witness :
    ([(5 : ℚ)] ≠ [] ∧ 1 < |Preproc.np_median ([(5 : ℚ)].map Preproc.convert_angle)|)
    ∧ Preproc.correct_skew 100 40 [(5 : ℚ)] =
        Preproc.SkewResult.rotated (50, 20) 5 "INTER_CUBIC" "BORDER_REPLICATE" := by
  have hne : [(5 : ℚ)] ≠ [] := by decide
  have hmed : Preproc.np_median ([(5 : ℚ)].map Preproc.convert_angle) = 5 := by
    decide
  have hgt : 1 < |Preproc.np_median ([(5 : ℚ)].map Preproc.convert_angle)| := by
    rw [hmed]; decide
  refine ⟨⟨hne, hgt⟩, ?_⟩
  have h := (correct_skew_spec 100 40 [(5 : ℚ)]).2.2 hne hgt
  rw [h, hmed]

/-- C3 counterexample: with engine tokens ("A", 0) and ("B", 50) the code
records confidence 50 (the mean of the strictly positive values), not 25
(the mean of the non-negative values the claim prescribes). -/
theorem recognized_confidence_counterexample :
    OCR.recognized_confidence
        [{ text := ['A'], conf := 0 }, { text := ['B'], conf := 50 }] = 50
    ∧ OCR.spec_confidence_mean_nonneg
        (OCR.confidences [{ text := ['A'], conf := 0 }, { text := ['B'], conf := 50 }]) = 25
    ∧ (50 : ℚ) ≠ 25 := by
  have h1 : OCR.confidences
      [{ text := ['A'], conf := 0 }, { text := ['B'], conf := 50 }] = [0, 50] := by
    decide
  refine ⟨?_, ?_, by norm_num⟩
  · simp only [OCR.recognized_confidence, h1]
    norm_num [List.filter_cons, List.filter_nil, List.any_cons, List.any_nil]
  · simp only [OCR.spec_confidence_mean_nonneg, h1]
    norm_num [List.filter_cons, List.filter_nil]

/-- C3 (amended): the confidence `recognize_text` records — returned by
`get_confidence` — equals the arithmetic mean of the engine's per-token
confidence values (over tokens with non-empty stripped text) that are
strictly positive, and equals 0 when there are no such positive values,
in particular when no per-token values are reported. -/
theorem recognized_confidence_eq_mean_positive (data : List OCR.TokenData) :
    OCR.get_confidence (OCR.recognize_text (Except.ok data)).2
      = OCR.spec_confidence_mean_positive (OCR.confidences data) := by
  show OCR.recognized_confidence data
      = OCR.spec_confidence_mean_positive (OCR.confidences data)
  unfold OCR.recognized_confidence OCR.spec_confidence_mean_positive
  by_cases h : OCR.confidences data = []
  · simp [h]
  · have hne : (OCR.confidences data).isEmpty = false := by
      simpa [List.isEmpty_iff] using h
    simp only [hne, Bool.not_false, if_true]
    by_cases hp : (OCR.confidences data).any (fun c => c > 0)
    · simp only [hp, if_true]
      have : ((OCR.confidences data).filter (fun c => decide (0 < c))).isEmpty = false := by
        rcases List.any_eq_true.mp hp with ⟨x, hx, hx0⟩
        have : x ∈ (OCR.confidences data).filter (fun c => decide (0 < c)) := by
          rw [List.mem_filter]
          exact ⟨hx, by simpa using hx0⟩
        cases hh : (OCR.confidences data).filter (fun c => decide (0 < c)) with
        | nil => rw [hh] at this; cases this
        | cons a t => rfl
      simp only [gt_iff_lt] at *
      rw [this]
      simp
    · have hall : ∀ x ∈ OCR.confidences data, ¬(0 < x) := by
        intro x hx
        by_contra hc
        exact hp (List.any_eq_true.mpr ⟨x, hx, by simpa using hc⟩)
      have hfil : (OCR.confidences data).filter (fun c => decide (0 < c)) = [] := by
        rw [List.filter_eq_nil_iff]
        intro a ha
        simpa using hall a ha
      simp only [gt_iff_lt] at *
      simp [hp, hfil]

/-- The best-result fold of `recognize_with_multiple_configs` over a list
of attempts either stays at `("", 0)` — in which case no attempt has both
non-empty stripped text and positive confidence — or lands on the
earliest attempt of maximal confidence among those with non-empty
stripped text, necessarily of positive confidence. -/
theorem keep_best_foldl_spec (l : List (List Char × ℚ)) :
    (l.foldl OCR.keep_best_step ([], 0) = (([] : List Char), (0 : ℚ))
        ∧ ∀ a ∈ l, OCR.pyStrip a.1 = [] ∨ a.2 ≤ 0)
    ∨ (∃ i : ℕ, l[i]? = some (l.foldl OCR.keep_best_step ([], 0))
        ∧ OCR.pyStrip (l.foldl OCR.keep_best_step ([], 0)).1 ≠ []
        ∧ 0 < (l.foldl OCR.keep_best_step ([], 0)).2
        ∧ (∀ a ∈ l, OCR.pyStrip a.1 ≠ [] → a.2 ≤ (l.foldl OCR.keep_best_step ([], 0)).2)
        ∧ ∀ j : ℕ, j < i → ∀ aj : List Char × ℚ, l[j]? = some aj → OCR.pyStrip aj.1 ≠ [] →
            aj.2 < (l.foldl OCR.keep_best_step ([], 0)).2) := by
  induction l using List.reverseRecOn with
  | nil => exact Or.inl ⟨rfl, by simp⟩
  | append_singleton s a ih =>
    rw [List.foldl_append, List.foldl_cons, List.foldl_nil]
    set r := s.foldl OCR.keep_best_step ([], 0) with hrdef
    by_cases hc : r.2 < a.2 ∧ OCR.pyStrip a.1 ≠ []
    · have hres : OCR.keep_best_step r a = a := by
        rw [OCR.keep_best_step, if_pos hc]
      rw [hres]
      right
      rcases ih with ⟨hr0, hall⟩ | ⟨i, hi, hne, hpos, hbound, hearly⟩
      · have hr2 : r.2 = 0 := by rw [hr0]
        refine ⟨s.length, List.getElem?_concat_length s a, hc.2, hr2 ▸ hc.1, ?_, ?_⟩
        · intro x hx hxne
          rcases List.mem_append.mp hx with hxs | hxa
          · rcases hall x hxs with h | h
            · exact absurd h hxne
            · exact le_of_lt (lt_of_le_of_lt h (hr2 ▸ hc.1))
          · have hx' : x = a := by simpa using hxa
            exact hx' ▸ le_refl _
        · intro j hj aj haj hajne
          rw [List.getElem?_append_left hj] at haj
          rcases hall aj (List.getElem?_mem haj) with h | h
          · exact absurd h hajne
          · exact lt_of_le_of_lt h (hr2 ▸ hc.1)
      · refine ⟨s.length, List.getElem?_concat_length s a, hc.2,
          lt_trans hpos hc.1, ?_, ?_⟩
        · intro x hx hxne
          rcases List.mem_append.mp hx with hxs | hxa
          · exact le_of_lt (lt_of_le_of_lt (hbound x hxs hxne) hc.1)
          · have hx' : x = a := by simpa using hxa
            exact hx' ▸ le_refl _
        · intro j hj aj haj hajne
          rw [List.getElem?_append_left hj] at haj
          exact lt_of_le_of_lt (hbound aj (List.getElem?_mem haj) hajne) hc.1
    · have hres : OCR.keep_best_step r a = r := by
        rw [OCR.keep_best_step, if_neg hc]
      rw [hres]
      rcases ih with ⟨hr0, hall⟩ | ⟨i, hi, hne, hpos, hbound, hearly⟩
      · left
        refine ⟨hr0, ?_⟩
        intro x hx
        rcases List.mem_append.mp hx with hxs | hxa
        · exact hall x hxs
        · have hx' : x = a := by simpa using hxa
          subst hx'
          by_cases hne2 : OCR.pyStrip x.1 = []
          · exact Or.inl hne2
          · have hnlt : ¬ r.2 < x.2 := fun hlt => hc ⟨hlt, hne2⟩
            have hr2 : r.2 = 0 := by rw [hr0]
            rw [hr2] at hnlt
            exact Or.inr (not_lt.mp hnlt)
      · right
        have hilen : i < s.length := by
          rcases List.getElem?_eq_some_iff.mp hi with ⟨h, _⟩
          exact h
        refine ⟨i, ?_, hne, hpos, ?_, ?_⟩
        · rw [List.getElem?_append_left hilen]
          exact hi
        · intro x hx hxne
          rcases List.mem_append.mp hx with hxs | hxa
          · exact hbound x hxs hxne
          · have hx' : x = a := by simpa using hxa
            subst hx'
            exact not_lt.mp (fun hlt => hc ⟨hlt, hxne⟩)
        · intro j hj aj haj
          rw [List.getElem?_append_left (lt_trans hj hilen)] at haj
          exact hearly j hj aj haj

/-- C4 counterexample: under an engine whose every attempt recognizes the
non-empty text "A" with confidence 0, every configuration attempt is
("A", 0) — non-empty text, maximal confidence — yet the code returns
("", 0.0) because an attempt is only kept when its confidence strictly
exceeds the running best, which starts at 0. -/
theorem recognize_multi_zero_conf_counterexample :
    OCR.ocr_attempts OCR.zero_conf_engine = List.replicate 6 (['A'], (0 : ℚ))
    ∧ (OCR.recognize_with_multiple_configs OCR.zero_conf_engine).1 = ([], 0)
    ∧ OCR.pyStrip ['A'] ≠ [] := by
  decide

/-- C4 (amended): `recognize_with_multiple_configs` tries its fixed
ordered list of six configurations and returns the (text, confidence)
pair of the earliest highest-confidence attempt among those with
non-empty text and strictly positive confidence; when no attempt has
non-empty text and positive confidence, the result is ("", 0.0). -/
theorem recognize_multi_configs_best (engine : String → Except String (List OCR.TokenData)) :
    ((∀ a ∈ OCR.ocr_attempts engine, OCR.pyStrip a.1 = [] ∨ a.2 ≤ 0) →
        (OCR.recognize_with_multiple_configs engine).1 = ([], 0))
    ∧ ((∃ a ∈ OCR.ocr_attempts engine, OCR.pyStrip a.1 ≠ [] ∧ 0 < a.2) →
        ∃ i : ℕ, (OCR.ocr_attempts engine)[i]?
              = some (OCR.recognize_with_multiple_configs engine).1
          ∧ OCR.pyStrip (OCR.recognize_with_multiple_configs engine).1.1 ≠ []
          ∧ 0 < (OCR.recognize_with_multiple_configs engine).1.2
          ∧ (∀ a ∈ OCR.ocr_attempts engine, OCR.pyStrip a.1 ≠ [] →
              a.2 ≤ (OCR.recognize_with_multiple_configs engine).1.2)
          ∧ ∀ j : ℕ, j < i → ∀ aj : List Char × ℚ, (OCR.ocr_attempts engine)[j]? = some aj →
              OCR.pyStrip aj.1 ≠ [] →
              aj.2 < (OCR.recognize_with_multiple_configs engine).1.2) := by
  have hb : (OCR.recognize_with_multiple_configs engine).1
      = (OCR.ocr_attempts engine).foldl OCR.keep_best_step ([], 0) := by
    simp only [OCR.recognize_with_multiple_configs, OCR.ocr_attempts, List.foldl_map]
  rw [hb]
  rcases keep_best_foldl_spec (OCR.ocr_attempts engine) with ⟨heq, hall⟩ | hgood
  · constructor
    · intro _
      exact heq
    · intro ⟨a, ha, hane, hapos⟩
      rcases hall a ha with h | h
      · exact absurd h hane
      · exact absurd hapos (not_lt.mpr h)
  · constructor
    · intro hall
      rcases hgood with ⟨i, hi, hne, hpos, _, _⟩
      rcases hall _ (List.getElem?_mem hi) with h | h
      · exact absurd h hne
      · exact absurd hpos (not_lt.mpr h)
    · intro _
      exact hgood

/-- C4 witness: under the all-zero-confidence engine the no-positive-
attempt hypothesis holds, and the theorem yields the ("", 0.0) result. -/
theorem recognize_multi_configs_best_witness :
    (OCR.recognize_with_multiple_configs OCR.zero_conf_engine).1 = ([], 0) := by
  apply (recognize_multi_configs_best OCR.zero_conf_engine).1
  decide

/-- The result of `recognize_with_multiple_configs` is the best-result
fold over the attempt list. -/
theorem recognize_multi_eq_fold (engine : String → Except String (List OCR.TokenData)) :
    (OCR.recognize_with_multiple_configs engine).1
      = (OCR.ocr_attempts engine).foldl OCR.keep_best_step ([], 0) := by
  simp only [OCR.recognize_with_multiple_configs, OCR.ocr_attempts, List.foldl_map]

/-- When the engine raises under every configuration, every attempt is
`("", 0)` and the multi-configuration recognition returns `("", 0.0)`. -/
theorem recognize_multi_all_errors (engine : String → Except String (List OCR.TokenData))
    (h : ∀ cfg, ∃ e, engine cfg = Except.error e) :
    (OCR.recognize_with_multiple_configs engine).1 = ([], 0) := by
  rw [recognize_multi_eq_fold]
  rcases keep_best_foldl_spec (OCR.ocr_attempts engine) with ⟨heq, _⟩ | ⟨i, hi, hne, _, _, _⟩
  · exact heq
  · exfalso
    rcases List.mem_map.mp (List.getElem?_mem hi) with ⟨cfg, _, hcfg⟩
    rcases h cfg with ⟨e, he⟩
    rw [he] at hcfg
    rw [← hcfg] at hne
    exact hne rfl

/-- C1: the three solve operations are total functions into result
strings — no failure escapes to the caller — and on any stage failure
(invalid or missing image file, unreadable image, extraction failure,
hashing or preprocessing error, recognition failure under every
configuration) they return the empty string. -/
theorem solve_operations_swallow_failures
    (env : Solver.SolveEnv) (extracted : Option Preproc.PILImage)
    (url : String) (driver_url : Option String)
    (steps : List String) (st : Solver.SolverState) :
    (((∃ e, env.validated_path = Except.error e)
        ∨ (∃ e, env.loaded_image = Except.error e)
        ∨ (∃ e, env.image_hash = Except.error e)
        ∨ (∃ e, env.preprocessed = Except.error e)
        ∨ (∀ cfg, ∃ e, env.ocr_engine cfg = Except.error e)) →
      (Solver.solve_from_file env steps st).1 = [])
    ∧ ((extracted = none
        ∨ (∃ e, env.image_hash = Except.error e)
        ∨ (∃ e, env.preprocessed = Except.error e)
        ∨ (∀ cfg, ∃ e, env.ocr_engine cfg = Except.error e)) →
      (Solver.solve_from_url env extracted url steps st).1 = [])
    ∧ ((extracted = none
        ∨ (∃ e, env.image_hash = Except.error e)
        ∨ (∃ e, env.preprocessed = Except.error e)
        ∨ (∀ cfg, ∃ e, env.ocr_engine cfg = Except.error e)) →
      (Solver.solve_from_element env extracted driver_url steps st).1 = []) := by
  have hsolve : ∀ source : String,
      ((∃ e, env.image_hash = Except.error e)
        ∨ (∃ e, env.preprocessed = Except.error e)
        ∨ (∀ cfg, ∃ e, env.ocr_engine cfg = Except.error e)) →
      (Solver.solve_image env steps source st).1 = [] := by
    intro source h
    rcases h with ⟨e, he⟩ | ⟨e, he⟩ | hocr
    · simp [Solver.solve_image, he]
    · cases hh : env.image_hash with
      | error e2 => simp [Solver.solve_image, hh]
      | ok hsh => simp [Solver.solve_image, hh, he]
    · cases hh : env.image_hash with
      | error e2 => simp [Solver.solve_image, hh]
      | ok hsh =>
        cases hp : env.preprocessed with
        | error e2 => simp [Solver.solve_image, hh, hp]
        | ok pimg =>
          simp only [Solver.solve_image, hh, hp, recognize_multi_all_errors env.ocr_engine hocr]
  refine ⟨?_, ?_, ?_⟩
  · intro h
    rcases h with ⟨e, he⟩ | ⟨e, he⟩ | hrest
    · simp [Solver.solve_from_file, he]
    · cases hv : env.validated_path with
      | error e2 => simp [Solver.solve_from_file, hv]
      | ok p => simp [Solver.solve_from_file, hv, he]
    · cases hv : env.validated_path with
      | error e2 => simp [Solver.solve_from_file, hv]
      | ok p =>
        cases hl : env.loaded_image with
        | error e2 => simp [Solver.solve_from_file, hv, hl]
        | ok img =>
          simp only [Solver.solve_from_file, hv, hl]
          exact hsolve p hrest
  · intro h
    rcases h with hnone | hrest
    · simp [Solver.solve_from_url, hnone]
    · cases extracted with
      | none => simp [Solver.solve_from_url]
      | some img =>
        simp only [Solver.solve_from_url]
        exact hsolve url hrest
  · intro h
    rcases h with hnone | hrest
    · simp [Solver.solve_from_element, hnone]
    · cases extracted with
      | none => simp [Solver.solve_from_element]
      | some img =>
        simp only [Solver.solve_from_element]
        exact hsolve _ hrest
/-- C1 witness: with every stage failing, each of the three solve
operations returns the empty string. -/
theorem solve_operations_swallow_failures_witness :
    (Solver.solve_from_file Solver.failing_env ["grayscale"] Solver.initial_state).1 = []
    ∧ (Solver.solve_from_url Solver.failing_env none "http://x.test"
        ["grayscale"] Solver.initial_state).1 = []
    ∧ (Solver.solve_from_element Solver.failing_env none none
        ["grayscale"] Solver.initial_state).1 = [] := by
  have h := solve_operations_swallow_failures Solver.failing_env none "http://x.test" none
    ["grayscale"] Solver.initial_state
  exact ⟨h.1 (Or.inl ⟨_, rfl⟩), h.2.1 (Or.inl rfl), h.2.2 (Or.inl rfl)⟩

/-- `record_processing` keeps exactly the last `min (n + 1) 100` records. -/
theorem record_processing_length (h : List Solver.ProcRecord) (r : Solver.ProcRecord) :
    (Solver.record_processing h r).length = min (h.length + 1) 100 := by
  unfold Solver.record_processing
  by_cases hlen : 100 < (h ++ [r]).length
  · rw [if_pos hlen, List.length_drop]
    simp only [List.length_append, List.length_singleton] at *
    omega
  · rw [if_neg hlen]
    simp only [List.length_append, List.length_singleton] at *
    omega

/-- The truncated history is a suffix of the appended history: older
records are discarded in order, from the front. -/
theorem record_processing_suffix (h : List Solver.ProcRecord) (r : Solver.ProcRecord) :
    Solver.record_processing h r <:+ h ++ [r] := by
  unfold Solver.record_processing
  dsimp only
  split_ifs
  · exact List.drop_suffix _ _
  · exact List.suffix_refl _

/-- The appended record is the last entry of the updated history. -/
theorem record_processing_getLast (h : List Solver.ProcRecord) (r : Solver.ProcRecord) :
    (Solver.record_processing h r).getLast? = some r := by
  have hsuf := record_processing_suffix h r
  rcases hsuf with ⟨t, ht⟩
  have hlen : (Solver.record_processing h r).length = min (h.length + 1) 100 :=
    record_processing_length h r
  have hne : Solver.record_processing h r ≠ [] := by
    intro hnil
    rw [hnil] at hlen
    simp at hlen
    omega
  have hlast : (t ++ Solver.record_processing h r).getLast? = some r := by
    rw [ht]
    exact List.getLast?_concat _
  rw [List.getLast?_append] at hlast
  cases hq : (Solver.record_processing h r).getLast? with
  | none =>
    rw [List.getLast?_eq_none_iff] at hq
    exact absurd hq hne
  | some x =>
    rw [hq] at hlast
    simpa using hlast

/-- C7: a successfully completed solve appends exactly one processing
record, whose `source` is the given source string, via
`record_processing`; the updated history holds the last
`min (previous + 1) 100` records, is a suffix of the previous history
with the new record appended (older records are discarded in order,
oldest first), and ends with the new record. -/
theorem solve_records_one_bounded (env : Solver.SolveEnv) (steps : List String)
    (source : String) (st : Solver.SolverState) :
    ∀ hash pimg, env.image_hash = Except.ok hash → env.preprocessed = Except.ok pimg →
    ∃ r : Solver.ProcRecord,
      r.source = source
      ∧ (Solver.solve_image env steps source st).2.processing_history
          = Solver.record_processing st.processing_history r
      ∧ (Solver.solve_image env steps source st).2.processing_history.length
          = min (st.processing_history.length + 1) 100
      ∧ (Solver.solve_image env steps source st).2.processing_history
          <:+ st.processing_history ++ [r]
      ∧ (Solver.solve_image env steps source st).2.processing_history.getLast?
          = some r := by
  intro hash pimg hh hp
  refine ⟨{ timestamp := env.timestamp, source := source, image_hash := hash,
            result := (OCR.recognize_with_multiple_configs env.ocr_engine).1.1,
            confidence := (OCR.recognize_with_multiple_configs env.ocr_engine).1.2,
            preprocessing_steps := steps }, rfl, ?_, ?_, ?_, ?_⟩
  · simp [Solver.solve_image, hh, hp]
  · simp only [Solver.solve_image, hh, hp]
    exact record_processing_length _ _
  · simp only [Solver.solve_image, hh, hp]
    exact record_processing_suffix _ _
  · simp only [Solver.solve_image, hh, hp]
    exact record_processing_getLast _ _

/-- C7 witness: the theorem applied to the all-stages-succeed
environment from the initial empty history. -/
theorem solve_records_one_bounded_witness :
    ∃ r : Solver.ProcRecord,
      r.source = "img1.png"
      ∧ (Solver.solve_image Solver.ok_env ["grayscale"] "img1.png"
            Solver.initial_state).2.processing_history
          = Solver.record_processing Solver.initial_state.processing_history r
      ∧ (Solver.solve_image Solver.ok_env ["grayscale"] "img1.png"
            Solver.initial_state).2.processing_history.length
          = min (Solver.initial_state.processing_history.length + 1) 100
      ∧ (Solver.solve_image Solver.ok_env ["grayscale"] "img1.png"
            Solver.initial_state).2.processing_history
          <:+ Solver.initial_state.processing_history ++ [r]
      ∧ (Solver.solve_image Solver.ok_env ["grayscale"] "img1.png"
            Solver.initial_state).2.processing_history.getLast? = some r :=
  solve_records_one_bounded Solver.ok_env ["grayscale"] "img1.png" Solver.initial_state
    "d41d8cd98f00b204e9800998ecf8427e" { mode := "L", pixels := [[255]] } rfl rfl

/-- C5 counterexample: for a batch consisting of one nonexistent image
path, the single returned entry is marked failed (`success = false`) but
carries no `error` field — `solve_from_file` swallows the failure and
returns the empty string, so the batch loop's `except` clause, the only
place the `error` field is populated, never runs. -/
theorem solve_batch_counterexample :
    (Solver.solve_batch [("missing.png", Solver.failing_env)] ["grayscale"]
        Solver.initial_state).1
      = [{ path := "missing.png", result := [], confidence := 0,
           success := false, has_error_field := false }] := by
  decide

/-- C5 (amended): `solve_batch` returns exactly one entry per input path
and never raises; the entry of a path whose file does not exist is marked
failed (`success = false`) with empty result text, but without an
`error` field, since the failure is swallowed inside `solve_from_file`. -/
theorem solve_batch_entries (inputs : List (String × Solver.SolveEnv))
    (steps : List String) (st : Solver.SolverState) :
    (Solver.solve_batch inputs steps st).1.length = inputs.length
    ∧ ∀ i : ℕ, ∀ path : String, ∀ env : Solver.SolveEnv,
        inputs[i]? = some (path, env) →
        (∃ e, env.validated_path = Except.error e) →
        ∃ entry : Solver.BatchEntry,
          (Solver.solve_batch inputs steps st).1[i]? = some entry
          ∧ entry.path = path ∧ entry.result = [] ∧ entry.success = false
          ∧ entry.has_error_field = false := by
  induction inputs generalizing st with
  | nil =>
    refine ⟨rfl, ?_⟩
    intro i path env hi _
    simp at hi
  | cons hd tl ih =>
    obtain ⟨p0, e0⟩ := hd
    constructor
    · simp only [Solver.solve_batch, List.length_cons]
      rw [(ih _).1]
    · intro i path env hi hfail
      cases i with
      | zero =>
        rw [List.getElem?_cons_zero] at hi
        have hpe : p0 = path ∧ e0 = env := by
          have := Option.some.inj hi
          exact ⟨congrArg Prod.fst this, congrArg Prod.snd this⟩
        obtain ⟨hp, he⟩ := hpe
        subst hp
        subst he
        rcases hfail with ⟨e, hfe⟩
        refine ⟨{ path := p0, result := [], confidence := st.last_confidence,
                  success := false, has_error_field := false }, ?_, rfl, rfl, rfl, rfl⟩
        simp [Solver.solve_batch, Solver.solve_from_file, hfe, OCR.pyStrip]
      | succ n =>
        rw [List.getElem?_cons_succ] at hi
        rcases (ih ((Solver.solve_from_file e0 steps st).2)).2 n path env hi hfail
          with ⟨entry, hE, h1, h2, h3, h4⟩
        refine ⟨entry, ?_, h1, h2, h3, h4⟩
        simp only [Solver.solve_batch, List.getElem?_cons_succ]
        exact hE

/-- C5 witness: the theorem applied to a one-element batch whose path
does not exist. -/
theorem solve_batch_entries_witness :
    (Solver.solve_batch [("missing.png", Solver.failing_env)] ["grayscale"]
        Solver.initial_state).1.length = 1
    ∧ ∃ entry : Solver.BatchEntry,
        (Solver.solve_batch [("missing.png", Solver.failing_env)] ["grayscale"]
            Solver.initial_state).1[0]? = some entry
        ∧ entry.path = "missing.png" ∧ entry.result = [] ∧ entry.success = false
        ∧ entry.has_error_field = false := by
  have h := solve_batch_entries [("missing.png", Solver.failing_env)] ["grayscale"]
    Solver.initial_state
  exact ⟨h.1, h.2 0 "missing.png" Solver.failing_env rfl ⟨_, rfl⟩⟩

/-- Alphabet characters are neither the newline nor the padding
character; out-of-range sextets fall back to the default 'A', which is
also neither. -/
theorem b64_char_props (n : ℕ) : Extract.b64_char n ≠ '\n' ∧ Extract.b64_char n ≠ '=' := by
  by_cases h : n < 64
  · have hF : ∀ m : Fin 64,
        Extract.b64_char m.val ≠ '\n' ∧ Extract.b64_char m.val ≠ '=' := by decide
    exact hF ⟨n, h⟩
  · have hA : Extract.b64_char n = 'A' := by
      have hlen : Extract.b64_alphabet.length ≤ n := by
        have : Extract.b64_alphabet.length = 64 := rfl
        omega
      rw [Extract.b64_char, List.getD_eq_getElem?_getD, List.getElem?_eq_none hlen]
      rfl
    rw [hA]
    exact ⟨by decide, by decide⟩

/-- Decoding an alphabet character recovers its sextet value. -/
theorem b64_char_index_char (n : ℕ) (h : n < 64) :
    Extract.b64_char_index (Extract.b64_char n) = some n := by
  have hF : ∀ m : Fin 64,
      Extract.b64_char_index (Extract.b64_char m.val) = some m.val := by decide
  exact hF ⟨n, h⟩

/-- The base64 encoding of a non-empty byte string is non-empty. -/
theorem b64encode_ne_nil (b : List ℕ) (h : b ≠ []) : Extract.b64encode b ≠ [] := by
  cases b with
  | nil => exact absurd rfl h
  | cons a t =>
    cases t with
    | nil => simp [Extract.b64encode]
    | cons b2 t2 =>
      cases t2 with
      | nil => simp [Extract.b64encode]
      | cons c3 t3 => simp [Extract.b64encode]

/-- `takeWhile` keeps the whole list when the predicate holds
everywhere. -/
theorem takeWhile_of_all {α : Type} (p : α → Bool) :
    ∀ l : List α, (∀ c ∈ l, p c = true) → l.takeWhile p = l
  | [], _ => rfl
  | c :: t, h => by
    rw [List.takeWhile_cons, h c (List.mem_cons_self c t)]
    simp only [if_true]
    rw [takeWhile_of_all p t (fun x hx => h x (List.mem_cons_of_mem c hx))]

/-- No character of a base64 encoding is a newline: the regexp's `(.+)`
capture therefore spans the whole payload. -/
theorem b64encode_mem_ne_newline :
    ∀ b : List ℕ, ∀ ch ∈ Extract.b64encode b, ch ≠ '\n'
  | [], ch, h => absurd h (List.not_mem_nil ch)
  | [a], ch, h => by
    simp only [Extract.b64encode, List.mem_cons, List.not_mem_nil, or_false] at h
    rcases h with h | h | h | h <;> subst h
    · exact (b64_char_props _).1
    · exact (b64_char_props _).1
    · decide
    · decide
  | [a, b2], ch, h => by
    simp only [Extract.b64encode, List.mem_cons, List.not_mem_nil, or_false] at h
    rcases h with h | h | h | h <;> subst h
    · exact (b64_char_props _).1
    · exact (b64_char_props _).1
    · exact (b64_char_props _).1
    · decide
  | a :: b2 :: c :: rest, ch, h => by
    simp only [Extract.b64encode, List.mem_cons] at h
    rcases h with h | h | h | h | h
    · subst h; exact (b64_char_props _).1
    · subst h; exact (b64_char_props _).1
    · subst h; exact (b64_char_props _).1
    · subst h; exact (b64_char_props _).1
    · exact b64encode_mem_ne_newline rest ch h

/-- Decoding inverts encoding on byte strings (values below 256). -/
theorem b64_roundtrip : ∀ b : List ℕ, (∀ x ∈ b, x < 256) →
    Extract.b64decode (Extract.b64encode b) = some b
  | [], _ => rfl
  | [a], h => by
    have ha : a < 256 := h a (by simp)
    have h1 : a / 4 < 64 := by omega
    have h2 : a % 4 * 16 < 64 := by omega
    simp [Extract.b64encode, Extract.b64decode,
      b64_char_index_char _ h1, b64_char_index_char _ h2]
    omega
  | [a, b2], h => by
    have ha : a < 256 := h a (by simp)
    have hb : b2 < 256 := h b2 (by simp)
    have h1 : a / 4 < 64 := by omega
    have h2 : a % 4 * 16 + b2 / 16 < 64 := by omega
    have h3 : b2 % 16 * 4 < 64 := by omega
    have hne3 : Extract.b64_char (b2 % 16 * 4) ≠ '=' := (b64_char_props _).2
    simp only [Extract.b64encode, Extract.b64decode]
    rw [if_neg (fun hcon => hne3 hcon.2.1)]
    rw [if_pos (by simp)]
    rw [b64_char_index_char _ h1, b64_char_index_char _ h2, b64_char_index_char _ h3]
    simp only [Option.some.injEq, List.cons.injEq, and_true]
    refine ⟨by omega, by omega⟩
  | a :: b2 :: c :: rest, h => by
    have ha : a < 256 := h a (by simp)
    have hb : b2 < 256 := h b2 (by simp)
    have hc : c < 256 := h c (by simp)
    have ih := b64_roundtrip rest (fun x hx => h x (by simp [hx]))
    have h1 : a / 4 < 64 := by omega
    have h2 : a % 4 * 16 + b2 / 16 < 64 := by omega
    have h3 : b2 % 16 * 4 + c / 64 < 64 := by omega
    have h4 : c % 64 < 64 := by omega
    have hne3 : Extract.b64_char (b2 % 16 * 4 + c / 64) ≠ '=' := (b64_char_props _).2
    have hne4 : Extract.b64_char (c % 64) ≠ '=' := (b64_char_props _).2
    simp only [Extract.b64encode, Extract.b64decode]
    rw [if_neg (fun hcon => hne3 hcon.2.1), if_neg (fun hcon => hne4 hcon.2)]
    rw [b64_char_index_char _ h1, b64_char_index_char _ h2,
      b64_char_index_char _ h3, b64_char_index_char _ h4, ih]
    simp only [Option.some.injEq, List.cons.injEq, and_true]
    refine ⟨by omega, by omega, by omega⟩

/-- The payload the regexp isolates from a well-formed png data URI is
exactly the base64 text appended after `;base64,`, provided it is
non-empty. -/
theorem data_uri_payload_encode (b : List ℕ) (hne : b ≠ []) :
    Extract.data_uri_payload ("data:image/png;base64,".data ++ Extract.b64encode b)
      = some (Extract.b64encode b) := by
  have h0 : Extract.data_uri_payload ("data:image/png;base64,".data ++ Extract.b64encode b)
      = (if ((Extract.b64encode b).takeWhile (fun c => c ≠ '\n')).isEmpty then none
         else some ((Extract.b64encode b).takeWhile (fun c => c ≠ '\n'))) := rfl
  have htw : (Extract.b64encode b).takeWhile (fun c => c ≠ '\n')
      = Extract.b64encode b := by
    apply takeWhile_of_all
    intro c hc
    exact decide_eq_true (b64encode_mem_ne_newline b c hc)
  have hEne : (Extract.b64encode b).isEmpty = false :=
    List.isEmpty_eq_false.mpr (b64encode_ne_nil b hne)
  rw [h0, htw, hEne]
  rfl

/-- C9 counterexample: at the empty byte string the claim fails — the
well-formed data URI `data:image/png;base64,` with empty payload is
rejected by the `(.+)` capture (which needs at least one character), so
the extractor returns `None` instead of reproducing the empty byte
string. -/
theorem decode_data_uri_empty_counterexample :
    Extract.b64encode [] = []
    ∧ Extract.decode_data_uri ("data:image/png;base64,".data ++ Extract.b64encode [])
        = none := ⟨rfl, rfl⟩

/-- C9 (amended): for every non-empty byte string b with byte values
below 256, the extractor isolates from the well-formed data URI
`data:image/png;base64,<base64(b)>` exactly the base64 text of b, and
decoding it yields exactly b — the bytes the image is then opened from;
base64 encode-then-decode is the identity. -/
theorem decode_data_uri_roundtrip (b : List ℕ) (hb : ∀ x ∈ b, x < 256) (hne : b ≠ []) :
    Extract.data_uri_payload ("data:image/png;base64,".data ++ Extract.b64encode b)
      = some (Extract.b64encode b)
    ∧ Extract.decode_data_uri ("data:image/png;base64,".data ++ Extract.b64encode b)
      = some b := by
  have hp := data_uri_payload_encode b hne
  refine ⟨hp, ?_⟩
  simp only [Extract.decode_data_uri, hp]
  exact b64_roundtrip b hb

/-- C9 witness: the round trip at the two-byte string [137, 80]. -/
theorem decode_data_uri_roundtrip_witness :
    Extract.data_uri_payload
        ("data:image/png;base64,".data ++ Extract.b64encode [137, 80])
      = some (Extract.b64encode [137, 80])
    ∧ Extract.decode_data_uri
        ("data:image/png;base64,".data ++ Extract.b64encode [137, 80])
      = some [137, 80] :=
  decode_data_uri_roundtrip [137, 80] (by decide) (by decide)

/-- Assigning a key into an association-list dictionary makes a lookup of
that key return the assigned value. -/
theorem findV_setV_self (l : List (String × ConfigHeap.JVal)) (k : String)
    (v : ConfigHeap.JVal) :
    ConfigHeap.findV (ConfigHeap.setV l k v) k = some v := by
  induction l with
  | nil => simp [ConfigHeap.setV, ConfigHeap.findV]
  | cons hd tl ih =>
    obtain ⟨k', v'⟩ := hd
    by_cases h : k' = k
    · simp [ConfigHeap.setV, ConfigHeap.findV, h]
    · simp [ConfigHeap.setV, ConfigHeap.findV, h, ih]

/-- C10: `Config.__init__` copies `DEFAULT_CONFIG` only shallowly, so a
configuration-file override `{s: {k: v}}` of a value nested inside an
existing section `s` is deep-merged into the section dictionary that the
copy still shares with `DEFAULT_CONFIG`: the class-level default's own
section dictionary ends up holding `v`, and a second `Config` constructed
afterwards with no file observes the overridden value `v` at
`config[s][k]` instead of the documented default. -/
theorem config_shallow_copy_aliasing (s : String) (a : ℕ) (k v : String)
    (hs : ConfigHeap.findV
        (ConfigHeap.dictAt ConfigHeap.default_heap ConfigHeap.default_addr) s
      = some (ConfigHeap.JVal.ref a)) :
    ConfigHeap.findV (ConfigHeap.dictAt (ConfigHeap.heap_after_override s k v) a) k
        = some (ConfigHeap.JVal.atom v)
    ∧ ConfigHeap.config_get2 (ConfigHeap.second_config s k v).1
        (ConfigHeap.second_config s k v).2 s k = some (ConfigHeap.JVal.atom v) := by
  by_cases h1 : "tesseract" = s
  · subst h1
    have ha : a = 0 := by
      have h' := hs
      simp [ConfigHeap.dictAt, ConfigHeap.default_heap, ConfigHeap.default_addr,
        ConfigHeap.findV] at h'
      omega
    subst ha
    constructor
    · have he : ConfigHeap.dictAt (ConfigHeap.heap_after_override "tesseract" k v) 0
          = ConfigHeap.setV (ConfigHeap.dictAt ConfigHeap.default_heap 0) k
              (ConfigHeap.JVal.atom v) := rfl
      rw [he]
      exact findV_setV_self _ _ _
    · have hg : ConfigHeap.config_get2 (ConfigHeap.second_config "tesseract" k v).1
            (ConfigHeap.second_config "tesseract" k v).2 "tesseract" k
          = ConfigHeap.findV (ConfigHeap.setV (ConfigHeap.dictAt ConfigHeap.default_heap 0)
              k (ConfigHeap.JVal.atom v)) k := rfl
      rw [hg]
      exact findV_setV_self _ _ _
  · by_cases h2 : "preprocessing" = s
    · subst h2
      have ha : a = 4 := by
        have h' := hs
        simp [ConfigHeap.dictAt, ConfigHeap.default_heap, ConfigHeap.default_addr,
          ConfigHeap.findV] at h'
        omega
      subst ha
      constructor
      · have he : ConfigHeap.dictAt (ConfigHeap.heap_after_override "preprocessing" k v) 4
            = ConfigHeap.setV (ConfigHeap.dictAt ConfigHeap.default_heap 4) k
                (ConfigHeap.JVal.atom v) := rfl
        rw [he]
        exact findV_setV_self _ _ _
      · have hg : ConfigHeap.config_get2 (ConfigHeap.second_config "preprocessing" k v).1
              (ConfigHeap.second_config "preprocessing" k v).2 "preprocessing" k
            = ConfigHeap.findV (ConfigHeap.setV (ConfigHeap.dictAt ConfigHeap.default_heap 4)
                k (ConfigHeap.JVal.atom v)) k := rfl
        rw [hg]
        exact findV_setV_self _ _ _
    · by_cases h3 : "selenium" = s
      · subst h3
        have ha : a = 5 := by
          have h' := hs
          simp [ConfigHeap.dictAt, ConfigHeap.default_heap, ConfigHeap.default_addr,
            ConfigHeap.findV] at h'
          omega
        subst ha
        constructor
        · have he : ConfigHeap.dictAt (ConfigHeap.heap_after_override "selenium" k v) 5
              = ConfigHeap.setV (ConfigHeap.dictAt ConfigHeap.default_heap 5) k
                  (ConfigHeap.JVal.atom v) := rfl
          rw [he]
          exact findV_setV_self _ _ _
        · have hg : ConfigHeap.config_get2 (ConfigHeap.second_config "selenium" k v).1
                (ConfigHeap.second_config "selenium" k v).2 "selenium" k
              = ConfigHeap.findV (ConfigHeap.setV (ConfigHeap.dictAt ConfigHeap.default_heap 5)
                  k (ConfigHeap.JVal.atom v)) k := rfl
          rw [hg]
          exact findV_setV_self _ _ _
      · by_cases h4 : "ocr" = s
        · subst h4
          have ha : a = 6 := by
            have h' := hs
            simp [ConfigHeap.dictAt, ConfigHeap.default_heap, ConfigHeap.default_addr,
              ConfigHeap.findV] at h'
            omega
          subst ha
          constructor
          · have he : ConfigHeap.dictAt (ConfigHeap.heap_after_override "ocr" k v) 6
                = ConfigHeap.setV (ConfigHeap.dictAt ConfigHeap.default_heap 6) k
                    (ConfigHeap.JVal.atom v) := rfl
            rw [he]
            exact findV_setV_self _ _ _
          · have hg : ConfigHeap.config_get2 (ConfigHeap.second_config "ocr" k v).1
                  (ConfigHeap.second_config "ocr" k v).2 "ocr" k
                = ConfigHeap.findV (ConfigHeap.setV (ConfigHeap.dictAt ConfigHeap.default_heap 6)
                    k (ConfigHeap.JVal.atom v)) k := rfl
            rw [hg]
            exact findV_setV_self _ _ _
        · by_cases h5 : "extraction" = s
          · subst h5
            have ha : a = 7 := by
              have h' := hs
              simp [ConfigHeap.dictAt, ConfigHeap.default_heap, ConfigHeap.default_addr,
                ConfigHeap.findV] at h'
              omega
            subst ha
            constructor
            · have he : ConfigHeap.dictAt (ConfigHeap.heap_after_override "extraction" k v) 7
                  = ConfigHeap.setV (ConfigHeap.dictAt ConfigHeap.default_heap 7) k
                      (ConfigHeap.JVal.atom v) := rfl
              rw [he]
              exact findV_setV_self _ _ _
            · have hg : ConfigHeap.config_get2 (ConfigHeap.second_config "extraction" k v).1
                    (ConfigHeap.second_config "extraction" k v).2 "extraction" k
                  = ConfigHeap.findV (ConfigHeap.setV (ConfigHeap.dictAt ConfigHeap.default_heap 7)
                      k (ConfigHeap.JVal.atom v)) k := rfl
              rw [hg]
              exact findV_setV_self _ _ _
          · exfalso
            simp [ConfigHeap.dictAt, ConfigHeap.default_heap, ConfigHeap.default_addr,
              ConfigHeap.findV, h1, h2, h3, h4, h5] at hs

/-- C10 witness: overriding `ocr.confidence_threshold` to "95" through a
configuration file makes a later defaults-only `Config` read "95". -/
theorem config_shallow_copy_aliasing_witness :
    ConfigHeap.findV
        (ConfigHeap.dictAt ConfigHeap.default_heap ConfigHeap.default_addr) "ocr"
      = some (ConfigHeap.JVal.ref 6)
    ∧ ConfigHeap.findV
        (ConfigHeap.dictAt
          (ConfigHeap.heap_after_override "ocr" "confidence_threshold" "95") 6)
        "confidence_threshold" = some (ConfigHeap.JVal.atom "95")
    ∧ ConfigHeap.config_get2
        (ConfigHeap.second_config "ocr" "confidence_threshold" "95").1
        (ConfigHeap.second_config "ocr" "confidence_threshold" "95").2
        "ocr" "confidence_threshold" = some (ConfigHeap.JVal.atom "95") := by
  have h := config_shallow_copy_aliasing "ocr" 6 "confidence_threshold" "95" rfl
  exact ⟨rfl, h.1, h.2⟩

end CaptchaSolver
